import Mathlib

/-
Verification of the ElectroOxidizer firmware control core.

Shallow embedding of the direction/measurement control loop and the
connectivity state machine of the firmware (src/src/main.cpp,
src/src/multi_network.cpp, src/include/config.h).

Modelling conventions:
* machine integers are `Nat` with explicit `% 2^32` (resp. `% 256`)
  where the C type (`uint32_t`/`unsigned long`, `uint8_t`) can wrap;
* the `float`/`double` measurement arithmetic is modelled over `ℚ`
  with the calibration constants taken as their exact decimal values;
* C strings (SSID/password) are modelled as `String`; the firmware's
  `strncpy` copies are exact for SSIDs of at most 32 bytes, which is
  the WiFi standard and the data model's bound, so truncation is not
  modelled;
* side effects (flash writes, WebSocket notifications, peak resets)
  are modelled as explicit effect counters returned next to the state.
-/

namespace ElectroOxidizer

-- ============================================================================
-- Constants (src/include/config.h)
-- ============================================================================

def MAX_SAMPLES : Nat := 100

def ADC_SLOPE : ℚ := 0.0192397497221598

def ADC_INTERCEPT : ℚ := -39.3900104981669

/-- `reconnectInterval` in config.h: base WiFi reconnect interval (ms). -/
def reconnectIntervalBase : Nat := 10000

def MAX_WIFI_NETWORKS : Nat := 5

/-- Modulus of `uint32_t` / 32-bit `unsigned long` arithmetic. -/
def U32 : Nat := 2 ^ 32

/-- Wrapping 32-bit subtraction `a - b` as used on `micros()`/`millis()`
timestamps (`currentTime - reversestartTime`, `millis() - peakResetStartTime`). -/
def sub32 (a b : Nat) : Nat := (a % U32 + (U32 - b % U32)) % U32

-- ============================================================================
-- Polarity scheduler (src/src/main.cpp, handleDirectionSwitching)
-- ============================================================================

/-- The polarity state: `outputDirection` (false = reverse, true = forward)
and `reversestartTime`, the `micros()` timestamp of the last flip. -/
structure PolarityState where
  outputDirection : Bool
  reversestartTime : Nat
deriving DecidableEq

/-- Embedding of `handleDirectionSwitching` (main.cpp lines 1113-1137).
`F`/`R` are `ForwardTimeInt`/`ReverseTimeInt` (ms); `now` is `micros()`. -/
def handleDirectionSwitching (F R : Nat) (s : PolarityState) (now : Nat) :
    PolarityState :=
  if s.outputDirection = true then
    if F * 1000 ≤ sub32 now s.reversestartTime then
      ⟨false, now % U32⟩
    else s
  else
    if R * 1000 ≤ sub32 now s.reversestartTime then
      ⟨true, now % U32⟩
    else s

-- ============================================================================
-- Measurement state (globals of src/src/main.cpp)
-- ============================================================================

/-- One raw sample of the ADC continuous-read batch
(`adc_digi_output_data_t`, fields `type2.channel`, `type2.unit`,
`type2.data`). -/
structure AdcSample where
  channel : Nat
  unit : Nat
  data : Nat
deriving DecidableEq

/-- The measurement globals of main.cpp: peak and average currents,
published voltages, latest sample, and the direction-partitioned
accumulators. -/
structure Meas where
  peakPositiveCurrent : ℚ
  peakNegativeCurrent : ℚ
  averagePositiveCurrent : ℚ
  averageNegativeCurrent : ℚ
  peakPositiveVoltage : ℚ
  peakNegativeVoltage : ℚ
  averagePositiveVoltage : ℚ
  averageNegativeVoltage : ℚ
  latestCurrent : ℚ
  latestRaw : ℚ
  positive_adc_sum : ℚ
  negative_adc_sum : ℚ
  positive_adc_count : Nat
  negative_adc_count : Nat
deriving DecidableEq

/-- Embedding of the per-sample body of `process_adc_data`
(main.cpp lines 686-707): the channel/unit filter, the linear
conversion to current, and the sign-gated accumulation.
`currentDirection` is the direction captured once for the batch. -/
def process_sample (currentDirection : Bool) (s : Meas) (p : AdcSample) :
    Meas :=
  if p.channel = 1 ∧ p.unit = 1 then
    let adc_raw : ℚ := p.data
    let s1 := { s with latestRaw := adc_raw,
                       latestCurrent := adc_raw * ADC_SLOPE + ADC_INTERCEPT }
    if currentDirection = true ∧ 0 < s1.latestCurrent then
      { s1 with positive_adc_sum := s1.positive_adc_sum + adc_raw,
                positive_adc_count := s1.positive_adc_count + 1 }
    else if currentDirection = false ∧ s1.latestCurrent < 0 then
      { s1 with negative_adc_sum := s1.negative_adc_sum + adc_raw,
                negative_adc_count := s1.negative_adc_count + 1 }
    else s1
  else s

/-- Embedding of `handleMeasurements` (main.cpp lines 1139-1184):
windowed averaging with the negative-side saturation clamp, then the
direction-dependent peak update with the negative-side clamp. -/
def handleMeasurements (outputDirection : Bool) (s : Meas) : Meas :=
  let s1 :=
    if MAX_SAMPLES ≤ s.positive_adc_count then
      { s with
        averagePositiveCurrent :=
          s.positive_adc_sum / (s.positive_adc_count : ℚ) * ADC_SLOPE +
            ADC_INTERCEPT,
        positive_adc_sum := 0,
        positive_adc_count := 0 }
    else s
  let s2 :=
    if MAX_SAMPLES ≤ s1.negative_adc_count then
      let an : ℚ :=
        s1.negative_adc_sum / (s1.negative_adc_count : ℚ) * ADC_SLOPE +
          ADC_INTERCEPT
      let an2 : ℚ :=
        if 11 / 10 * |s1.averagePositiveCurrent| ≤ |an| then
          -s1.averagePositiveCurrent
        else an
      { s1 with
        averageNegativeCurrent := an2,
        negative_adc_sum := 0,
        negative_adc_count := 0 }
    else s1
  if outputDirection = true then
    if s2.peakPositiveCurrent < s2.latestCurrent then
      { s2 with peakPositiveCurrent := s2.latestCurrent }
    else s2
  else
    if s2.latestCurrent < s2.peakNegativeCurrent then
      let pn : ℚ := s2.latestCurrent
      let pn2 : ℚ :=
        if 11 / 10 * |s2.peakPositiveCurrent| ≤ |pn| then
          -s2.peakPositiveCurrent
        else pn
      { s2 with peakNegativeCurrent := pn2 }
    else s2

/-- Embedding of `resetPeakValues` (main.cpp lines 929-945); `fv1` is
`FValue1.toFloat()`, the current target-voltage parameter. -/
def resetPeakValues (fv1 : ℚ) (s : Meas) : Meas :=
  { s with
    peakPositiveCurrent := 0,
    peakNegativeCurrent := 0,
    averagePositiveCurrent := 0,
    averageNegativeCurrent := 0,
    positive_adc_sum := 0,
    positive_adc_count := 0,
    negative_adc_sum := 0,
    negative_adc_count := 0,
    peakPositiveVoltage := fv1,
    peakNegativeVoltage := fv1,
    averagePositiveVoltage := fv1,
    averageNegativeVoltage := fv1 }

/-- An all-zero measurement state, used as a concrete base point. -/
def meas0 : Meas := ⟨0, 0, 0, 0, 0, 0, 0, 0, 0, 0, 0, 0, 0, 0⟩

/-- Concrete state for the positive-peak scenario: negative peak -1 A,
latest sampled current 10 A, forward direction about to be processed. -/
def measC3 : Meas := { meas0 with peakNegativeCurrent := -1, latestCurrent := 10 }

/-- Concrete state for the negative-peak clamp scenario: positive peak 1 A,
latest sampled current -50 A. -/
def measB : Meas := { meas0 with peakPositiveCurrent := 1, latestCurrent := -50 }

/-- Concrete state exercising both negative-side clamps at once:
100 pending negative samples of sum 0, positive average and positive
peak of 1 A, latest current -50 A. -/
def measC4 : Meas :=
  { measB with averagePositiveCurrent := 1, negative_adc_count := 100 }

-- ============================================================================
-- Network credential store (src/src/multi_network.cpp, src/include/config.h)
-- ============================================================================

/-- `WiFiCredential` of config.h lines 104-110.  `priority` is a
`uint8_t`, kept below 256 and updated modulo 256; `lastConnected` is
an `unsigned long` `millis()` timestamp. -/
structure WiFiCredential where
  ssid : String
  password : String
  priority : Nat
  lastConnected : Nat
  isValid : Bool
deriving DecidableEq

/-- The fixed five-slot table `savedNetworks[MAX_WIFI_NETWORKS]`. -/
abbrev NetworkTable := Fin 5 → WiFiCredential

/-- `initMultiNetworkStorage` (multi_network.cpp lines 18-29): all
slots invalid, empty strings, priority 0, lastConnected 0. -/
def initMultiNetworkStorage : NetworkTable := fun _ => ⟨"", "", 0, 0, false⟩

/-- `findNetworkIndex` (multi_network.cpp lines 129-139): first slot
that is valid and whose stored SSID equals the given one. -/
def findNetworkIndex (t : NetworkTable) (ssid : String) : Option (Fin 5) :=
  (List.finRange 5).find? fun i => (t i).isValid && (t i).ssid == ssid

/-- The empty-slot scan of `addOrUpdateNetwork`
(multi_network.cpp lines 167-175): first invalid slot. -/
def firstEmptySlot (t : NetworkTable) : Option (Fin 5) :=
  (List.finRange 5).find? fun i => !(t i).isValid

/-- The swap condition of `sortNetworksByPriority`
(multi_network.cpp lines 231-248). -/
def shouldSwapB (a b : WiFiCredential) : Bool :=
  (a.isValid && b.isValid &&
    (decide (a.priority < b.priority) ||
      (a.priority == b.priority &&
        decide (a.lastConnected < b.lastConnected)))) ||
  (!a.isValid && b.isValid)

/-- One compare-and-swap of the bubble sort at adjacent indices
`j`, `j+1`. -/
def cmpSwapAt (t : NetworkTable) (j : Nat) : NetworkTable :=
  if h : j + 1 < 5 then
    let ja : Fin 5 := ⟨j, Nat.lt_of_succ_lt h⟩
    let jb : Fin 5 := ⟨j + 1, h⟩
    if shouldSwapB (t ja) (t jb) then
      Function.update (Function.update t ja (t jb)) jb (t ja)
    else t
  else t

/-- The inner loop of the bubble sort: compare-and-swap at
`j = 0, 1, ..., m-1` in order. -/
def innerPass (t : NetworkTable) : Nat → NetworkTable
  | 0 => t
  | m + 1 => cmpSwapAt (innerPass t m) m

/-- `sortNetworksByPriority` (multi_network.cpp lines 224-258):
bubble sort by priority descending, then lastConnected descending,
invalid entries last; outer passes `i = 0..3` run the inner loop with
bounds `MAX_WIFI_NETWORKS - i - 1 = 4, 3, 2, 1`. -/
def sortNetworksByPriority (t : NetworkTable) : NetworkTable :=
  innerPass (innerPass (innerPass (innerPass t 4) 3) 2) 1

/-- `addOrUpdateNetwork` (multi_network.cpp lines 141-205), with
`now = millis()`.  The flash write (`saveSavedNetworks`) is a side
effect outside the table state.  An existing SSID has its password
updated (when non-empty), its `lastConnected` refreshed and its
8-bit priority incremented; a new SSID goes to the first empty slot,
or, with the table full, the table is sorted and the last slot is
overwritten; a fresh entry has priority 1. -/
def addOrUpdateNetwork (t : NetworkTable) (ssid password : String)
    (now : Nat) : NetworkTable :=
  if ssid = "" then t
  else
    match findNetworkIndex t ssid with
    | some i =>
        Function.update t i
          { t i with
            password := if password = "" then (t i).password else password,
            lastConnected := now,
            priority := ((t i).priority + 1) % 256 }
    | none =>
        match firstEmptySlot t with
        | some i => Function.update t i ⟨ssid, password, 1, now, true⟩
        | none =>
            Function.update (sortNetworksByPriority t) (4 : Fin 5)
              ⟨ssid, password, 1, now, true⟩

/-- `removeNetwork` (multi_network.cpp lines 207-222). -/
def removeNetwork (t : NetworkTable) (ssid : String) : NetworkTable :=
  match findNetworkIndex t ssid with
  | none => t
  | some i =>
      Function.update t i
        { t i with isValid := false, ssid := "", password := "" }

/-- An operation on the credential table. -/
inductive NetOp where
  | add (ssid password : String) (now : Nat)
  | remove (ssid : String)
deriving DecidableEq

def applyNetOp (t : NetworkTable) : NetOp → NetworkTable
  | .add ssid password now => addOrUpdateNetwork t ssid password now
  | .remove ssid => removeNetwork t ssid

def applyNetOps (t : NetworkTable) (ops : List NetOp) : NetworkTable :=
  ops.foldl applyNetOp t

/-- No two valid entries share an SSID. -/
def NoDupSSIDs (t : NetworkTable) : Prop :=
  ∀ i j : Fin 5, i ≠ j → (t i).isValid = true → (t j).isValid = true →
    (t i).ssid ≠ (t j).ssid

/-- Every valid entry's priority is at least 1. -/
def PrioritiesPos (t : NetworkTable) : Prop :=
  ∀ i : Fin 5, (t i).isValid = true → 1 ≤ (t i).priority

/-- Every priority fits the `uint8_t` representation. -/
def PrioritiesByte (t : NetworkTable) : Prop :=
  ∀ i : Fin 5, (t i).priority < 256

/-- The number of valid entries is at most `MAX_WIFI_NETWORKS`. -/
def ValidCountLe (t : NetworkTable) : Prop :=
  (Finset.univ.filter fun i : Fin 5 => (t i).isValid = true).card ≤
    MAX_WIFI_NETWORKS

/-- An `add` call does not increment a priority that is already 255:
the side condition under which the 8-bit priority cannot wrap to 0. -/
def stepOkB (t : NetworkTable) : NetOp → Bool
  | .add ssid _ _ =>
      match findNetworkIndex t ssid with
      | some i => (t i).priority != 255
      | none => true
  | .remove _ => true

/-- A run of table operations in which no 8-bit priority wraps. -/
def goodRunB (t : NetworkTable) : List NetOp → Bool
  | [] => true
  | op :: ops => stepOkB t op && goodRunB (applyNetOp t op) ops

/-- All slots hold valid entries (a full table). -/
def AllValid (t : NetworkTable) : Prop := ∀ i : Fin 5, (t i).isValid = true

instance decAllValid (t : NetworkTable) : Decidable (AllValid t) :=
  inferInstanceAs (Decidable (∀ i : Fin 5, (t i).isValid = true))

/-- The eviction order: `a` is at most `b` when `a` has lower
priority, or equal priority and an older (not newer) `lastConnected`
timestamp.  The bubble sort puts a minimal entry in this order into
the last slot. -/
def keyLE (a b : WiFiCredential) : Prop :=
  a.priority < b.priority ∨
    (a.priority = b.priority ∧ a.lastConnected ≤ b.lastConnected)

/-- Strict eviction order: the swap condition among valid entries. -/
def keyLT (a b : WiFiCredential) : Prop :=
  a.priority < b.priority ∨
    (a.priority = b.priority ∧ a.lastConnected < b.lastConnected)

/-- The three-part table invariant of claim C5 (with the priority
part guarded by the byte bound): SSID uniqueness, positivity of
valid priorities, and the `uint8_t` range. -/
def TableInv (t : NetworkTable) : Prop :=
  NoDupSSIDs t ∧ PrioritiesPos t ∧ PrioritiesByte t

/-- Table with the single network "a" at slot 0 with priority `p`. -/
def tblA (p : Nat) : NetworkTable :=
  Function.update initMultiNetworkStorage ⟨0, by omega⟩ ⟨"a", "p", p, 0, true⟩

/-- A concrete full table: five valid networks, all priority 1,
pairwise distinct SSIDs, `lastConnected` stamps 50, 40, 30, 20, 10. -/
def tbl5 : NetworkTable :=
  ![⟨"net0", "pw0", 1, 50, true⟩, ⟨"net1", "pw1", 1, 40, true⟩,
    ⟨"net2", "pw2", 1, 30, true⟩, ⟨"net3", "pw3", 1, 20, true⟩,
    ⟨"net4", "pw4", 1, 10, true⟩]

-- ============================================================================
-- WiFi reconnection backoff (src/src/main.cpp, loop, lines 1255-1297)
-- ============================================================================

/-- Backoff state: `currentReconnectInterval` and
`lastReconnectAttempt` (both 32-bit `unsigned long`, ms), together
with WiFiManager's config-portal flag
(`wifiManager.getConfigPortalActive()`), which is program state: the
failure path of the reconnection block itself starts the portal
(main.cpp lines 1276-1279). -/
structure BackoffState where
  currentReconnectInterval : Nat
  lastReconnectAttempt : Nat
  configPortalActive : Bool
deriving DecidableEq

/-- External inputs of one loop iteration for the reconnection logic:
link state, `millis()`, whether `connectToSavedNetworks()` would
succeed if attempted this iteration, and whether
`wifiManager.process()` at the top of the loop deactivates an active
portal this iteration (portal timeout after 180 s, or credentials
supplied through the portal). -/
structure ReconnectEnv where
  wifiConnected : Bool
  now : Nat
  connectSuccess : Bool
  portalCloses : Bool
deriving DecidableEq

/-- Embedding of the reconnection block of `loop`
(main.cpp lines 1255-1297).  `cap` is `maxReconnectInterval`;
modelled from the spec: the constant `maxReconnectInterval` is
referenced at main.cpp line 1284 but not defined in the sources at
hand, and the spec only says the interval "caps at a maximum", so the
cap is a parameter here.  First `wifiManager.process()` may close an
active portal; then, if the link is down, 30 s have passed since boot
and the portal is inactive, an elapsed interval triggers an attempt:
on success the interval returns to the base, on failure the portal is
started (main.cpp lines 1276-1279) and the interval doubles (32-bit
arithmetic) and is capped (main.cpp lines 1283-1284).  Otherwise the
`else` branch resets the interval to the base whenever it differs
(main.cpp lines 1290-1297) — note this branch runs not only while
connected but also while the portal is active or before the 30 s
boot delay. -/
def reconnectStep (cap : Nat) (s : BackoffState) (e : ReconnectEnv) :
    BackoffState :=
  let portal := s.configPortalActive && !e.portalCloses
  if e.wifiConnected = false ∧ 30000 < e.now ∧ portal = false then
    if s.currentReconnectInterval ≤ sub32 e.now s.lastReconnectAttempt then
      if e.connectSuccess then
        ⟨reconnectIntervalBase, e.now, portal⟩
      else
        let newInterval := 2 * s.currentReconnectInterval % U32
        ⟨if newInterval < cap then newInterval else cap, e.now, true⟩
    else ⟨s.currentReconnectInterval, s.lastReconnectAttempt, portal⟩
  else
    if s.currentReconnectInterval ≠ reconnectIntervalBase then
      ⟨reconnectIntervalBase, s.lastReconnectAttempt, portal⟩
    else ⟨s.currentReconnectInterval, s.lastReconnectAttempt, portal⟩

def applyReconnects (cap : Nat) (s : BackoffState)
    (es : List ReconnectEnv) : BackoffState :=
  es.foldl (reconnectStep cap) s

-- ============================================================================
-- WebSocket command handling (src/src/main.cpp, handleWebSocketMessage)
-- ============================================================================

/-- The control-parameter globals touched by the WebSocket command
dispatcher.  `FValue1` is the target voltage (stored as a string in
the firmware, modelled by its numeric value); `FValue2`/`RValue2`
mirror `ForwardTimeInt`/`ReverseTimeInt` as in the source. -/
structure CtrlState where
  isRunning : Bool
  FValue1 : ℚ
  FValue2 : Nat
  RValue2 : Nat
  ForwardTimeInt : Nat
  ReverseTimeInt : Nat
  meas : Meas
deriving DecidableEq

/-- Side effects of one dispatched message: number of
`saveSettings()` flash writes, `resetPeakValues()` calls, and
`notifyClients(...)` pushes. -/
structure WsEffects where
  settingsSaves : Nat
  peakResets : Nat
  clientNotifies : Nat
deriving DecidableEq

/-- A recognized WebSocket text command, after the prefix matching of
`handleWebSocketMessage` (main.cpp lines 951-1029): `toggle`,
`1F<value>` (target voltage, parsed with `toFloat`), `2F<value>` /
`2R<value>` (dwell times, parsed with `toInt`), `resetPeakCurrent`,
`getValues`, or anything else. -/
inductive WsCommand where
  | toggle
  | setTargetVoltage (v : ℚ)
  | setForwardTime (n : Int)
  | setReverseTime (n : Int)
  | resetPeakCurrent
  | getValuesQuery
  | unrecognized
deriving DecidableEq

/-- Embedding of the dispatch chain of `handleWebSocketMessage`
(main.cpp lines 951-1029), returning the new state and the effect
counts of the call. -/
def handleWebSocketMessage (s : CtrlState) : WsCommand →
    CtrlState × WsEffects
  | .toggle => ({ s with isRunning := !s.isRunning }, ⟨0, 0, 1⟩)
  | .setTargetVoltage v =>
      if 0 ≤ v ∧ v ≤ 24 then
        ({ s with FValue1 := v, meas := resetPeakValues v s.meas },
          ⟨1, 1, 1⟩)
      else (s, ⟨0, 0, 0⟩)
  | .setForwardTime n =>
      if 10 ≤ n ∧ n ≤ 60000 then
        ({ s with
            FValue2 := n.toNat,
            ForwardTimeInt := n.toNat,
            meas := resetPeakValues s.FValue1 s.meas }, ⟨1, 1, 1⟩)
      else (s, ⟨0, 0, 0⟩)
  | .setReverseTime n =>
      if 10 ≤ n ∧ n ≤ 60000 then
        ({ s with
            RValue2 := n.toNat,
            ReverseTimeInt := n.toNat,
            meas := resetPeakValues s.FValue1 s.meas }, ⟨1, 1, 1⟩)
      else (s, ⟨0, 0, 0⟩)
  | .resetPeakCurrent =>
      ({ s with meas := resetPeakValues s.FValue1 s.meas }, ⟨0, 1, 1⟩)
  | .getValuesQuery => (s, ⟨0, 0, 1⟩)
  | .unrecognized => (s, ⟨0, 0, 0⟩)

/-- A concrete control state for witnesses. -/
def ctrl0 : CtrlState := ⟨true, 14, 100, 100, 100, 100, meas0⟩

-- ============================================================================
-- One-shot startup peak reset (src/src/main.cpp, loop, lines 1336-1342)
-- ============================================================================

/-- One loop iteration for the one-shot reset: whether the device is
in the running branch, and `millis()` at this iteration. -/
structure LoopTick where
  running : Bool
  now : Nat
deriving DecidableEq

/-- State of the one-shot startup reset: the `hasResetPeakCurrent`
latch and a counter of `resetPeakValues()` invocations made by this
path (for the exactly-once statement). -/
structure OneShotState where
  hasResetPeakCurrent : Bool
  resetInvocations : Nat
deriving DecidableEq

/-- Embedding of the one-shot block of `loop`
(main.cpp lines 1336-1342); `t0` is `peakResetStartTime`, the
`millis()` stamp recorded at the end of `setup()` (main.cpp
line 328), and the elapsed time is the 32-bit wrapping difference
(the source comments "millis() rollover safe"). -/
def oneShotStep (t0 : Nat) (s : OneShotState) (tk : LoopTick) :
    OneShotState :=
  if tk.running then
    if s.hasResetPeakCurrent = false ∧ 60000 ≤ sub32 tk.now t0 then
      ⟨true, s.resetInvocations + 1⟩
    else s
  else s

def applyTicks (t0 : Nat) (s : OneShotState) (ticks : List LoopTick) :
    OneShotState :=
  ticks.foldl (oneShotStep t0) s

/-- A tick at which the one-shot condition holds: running branch and
at least 60000 ms elapsed since `t0`. -/
def tickQualifies (t0 : Nat) (tk : LoopTick) : Bool :=
  tk.running && decide (60000 ≤ sub32 tk.now t0)

-- ============================================================================
-- Theorems
-- ============================================================================

/-- Claim C1: for every advance of the polarity scheduler
(`handleDirectionSwitching`) with configured dwell times in
[10,60000] ms, the output direction changes only at a call where the
elapsed microsecond time since the last flip (32-bit wrapping
difference of `micros()` timestamps) is at least the dwell time, in
microseconds, of the direction active at that moment; it never
changes earlier; and when it flips, the direction toggles (so exactly
one of the two directions is active) and the flip timestamp is reset
to the current time.  Quantifying over an arbitrary state covers
every call of every sequence of advances. -/
theorem polarity_flip_only_after_dwell (F R : Nat)
    (hF1 : 10 ≤ F) (hF2 : F ≤ 60000) (hR1 : 10 ≤ R) (hR2 : R ≤ 60000)
    (s : PolarityState) (now : Nat) (hnow : now < U32) :
    ((handleDirectionSwitching F R s now).outputDirection ≠
        s.outputDirection →
      (if s.outputDirection then F else R) * 1000 ≤
          sub32 now s.reversestartTime ∧
        (handleDirectionSwitching F R s now).reversestartTime = now ∧
        (handleDirectionSwitching F R s now).outputDirection =
          !s.outputDirection) ∧
    (sub32 now s.reversestartTime <
        (if s.outputDirection then F else R) * 1000 →
      handleDirectionSwitching F R s now = s) := by
  obtain ⟨d, st⟩ := s
  have hmod : now % U32 = now := Nat.mod_eq_of_lt hnow
  cases d <;>
    simp only [handleDirectionSwitching, Bool.false_eq_true, if_false,
      if_true] <;>
    constructor <;> intro h <;> split_ifs at * <;>
    simp_all [hmod] <;> omega

/-- Witness for C1: with dwell times 100/100 ms, a call in forward
direction 150000 µs after the last flip does flip, resets the
timestamp and toggles the direction. -/
theorem polarity_flip_only_after_dwell_witness :
    (10 ≤ 100 ∧ (100 : Nat) ≤ 60000 ∧ (150000 : Nat) < U32) ∧
    (((handleDirectionSwitching 100 100 ⟨true, 0⟩ 150000).outputDirection ≠
        (true : Bool) →
      (if (true : Bool) then 100 else 100) * 1000 ≤ sub32 150000 0 ∧
        (handleDirectionSwitching 100 100 ⟨true, 0⟩ 150000).reversestartTime =
          150000 ∧
        (handleDirectionSwitching 100 100 ⟨true, 0⟩ 150000).outputDirection =
          !(true : Bool)) ∧
    (sub32 150000 0 < (if (true : Bool) then 100 else 100) * 1000 →
      handleDirectionSwitching 100 100 ⟨true, 0⟩ 150000 = ⟨true, 0⟩)) :=
  ⟨⟨by decide, by decide, by decide⟩,
    polarity_flip_only_after_dwell 100 100 (by decide) (by decide)
      (by decide) (by decide) ⟨true, 0⟩ 150000 (by decide)⟩

/-- Claim C2: for every ingested ADC sample (one that passes the
channel/unit filter of the batch loop), the raw code is added to the
positive accumulator (sum and count) iff the direction captured for
the batch is forward and the computed current
`raw*ADC_SLOPE + ADC_INTERCEPT` is strictly positive; it is added to
the negative accumulator iff the direction is reverse and the
computed current is strictly negative; every other sample leaves both
accumulators' sums and counts unchanged. -/
theorem adc_sign_gated_accumulation (currentDirection : Bool) (s : Meas)
    (p : AdcSample) (hch : p.channel = 1) (hu : p.unit = 1) :
    ((currentDirection = true ∧
        0 < (p.data : ℚ) * ADC_SLOPE + ADC_INTERCEPT) →
      (process_sample currentDirection s p).positive_adc_sum =
          s.positive_adc_sum + (p.data : ℚ) ∧
        (process_sample currentDirection s p).positive_adc_count =
          s.positive_adc_count + 1 ∧
        (process_sample currentDirection s p).negative_adc_sum =
          s.negative_adc_sum ∧
        (process_sample currentDirection s p).negative_adc_count =
          s.negative_adc_count) ∧
    ((currentDirection = false ∧
        (p.data : ℚ) * ADC_SLOPE + ADC_INTERCEPT < 0) →
      (process_sample currentDirection s p).negative_adc_sum =
          s.negative_adc_sum + (p.data : ℚ) ∧
        (process_sample currentDirection s p).negative_adc_count =
          s.negative_adc_count + 1 ∧
        (process_sample currentDirection s p).positive_adc_sum =
          s.positive_adc_sum ∧
        (process_sample currentDirection s p).positive_adc_count =
          s.positive_adc_count) ∧
    (¬(currentDirection = true ∧
        0 < (p.data : ℚ) * ADC_SLOPE + ADC_INTERCEPT) →
      ¬(currentDirection = false ∧
        (p.data : ℚ) * ADC_SLOPE + ADC_INTERCEPT < 0) →
      (process_sample currentDirection s p).positive_adc_sum =
          s.positive_adc_sum ∧
        (process_sample currentDirection s p).positive_adc_count =
          s.positive_adc_count ∧
        (process_sample currentDirection s p).negative_adc_sum =
          s.negative_adc_sum ∧
        (process_sample currentDirection s p).negative_adc_count =
          s.negative_adc_count) := by
  simp only [process_sample, hch, hu, and_self, if_true]
  split_ifs with h1 h2 <;> simp_all

/-- Witness for C2: raw code 3000 under forward direction computes a
positive current and is accumulated into the positive accumulator. -/
theorem adc_sign_gated_accumulation_witness :
    (process_sample true meas0 ⟨1, 1, 3000⟩).positive_adc_sum = 3000 ∧
    (process_sample true meas0 ⟨1, 1, 3000⟩).positive_adc_count = 1 ∧
    (process_sample true meas0 ⟨1, 1, 3000⟩).negative_adc_count = 0 := by
  obtain ⟨hs, hc, _, hnc⟩ :=
    (adc_sign_gated_accumulation true meas0 ⟨1, 1, 3000⟩ rfl rfl).1
      ⟨rfl, by norm_num [ADC_SLOPE, ADC_INTERCEPT]⟩
  refine ⟨?_, ?_, ?_⟩
  · rw [hs]; norm_num [meas0]
  · rw [hc]; norm_num [meas0]
  · rw [hnc]; rfl

/-- Counterexample to claim C3 as stated: the saturation rule is not
applied to the positive peak.  Starting from a negative peak of -1 A
and a latest current of 10 A in forward direction, the updated
positive peak (10 A) exceeds 1.1 times the magnitude of the negative
peak, yet it is not clamped to the negated negative peak (1 A). -/
theorem peak_saturation_not_symmetric_cex :
    11 / 10 * |(handleMeasurements true measC3).peakNegativeCurrent| <
      |(handleMeasurements true measC3).peakPositiveCurrent| ∧
    (handleMeasurements true measC3).peakPositiveCurrent ≠
      -(handleMeasurements true measC3).peakNegativeCurrent := by
  norm_num [handleMeasurements, measC3, meas0, MAX_SAMPLES]

/-- Claim C3 (amended): the saturation-correction rule applies only to
the negative peak: in a forward-direction call the positive peak is
updated to the raw latest current whenever it is more extreme, with no
clamp, and the negative peak is untouched; in a reverse-direction call
the negative peak, when updated, is set to the latest current clamped
to the negated positive peak whenever its magnitude reaches 1.1 times
the magnitude of the positive peak. -/
theorem peak_saturation_negative_only (d : Bool) (s : Meas) :
    (d = true →
      (handleMeasurements d s).peakNegativeCurrent =
          s.peakNegativeCurrent ∧
        (s.peakPositiveCurrent < s.latestCurrent →
          (handleMeasurements d s).peakPositiveCurrent = s.latestCurrent) ∧
        (¬s.peakPositiveCurrent < s.latestCurrent →
          (handleMeasurements d s).peakPositiveCurrent =
            s.peakPositiveCurrent)) ∧
    (d = false →
      (handleMeasurements d s).peakPositiveCurrent =
          s.peakPositiveCurrent ∧
        (s.latestCurrent < s.peakNegativeCurrent →
          (handleMeasurements d s).peakNegativeCurrent =
            (if 11 / 10 * |s.peakPositiveCurrent| ≤ |s.latestCurrent| then
              -s.peakPositiveCurrent
            else s.latestCurrent))) := by
  simp only [handleMeasurements]
  split_ifs <;> simp_all

/-- Witness for amended C3: in reverse direction with positive peak
1 A and latest current -50 A, the negative peak is clamped to -1 A
while the positive peak is untouched. -/
theorem peak_saturation_negative_only_witness :
    (handleMeasurements false measB).peakPositiveCurrent = 1 ∧
    (handleMeasurements false measB).peakNegativeCurrent = -1 := by
  obtain ⟨hp, hn⟩ := (peak_saturation_negative_only false measB).2 rfl
  refine ⟨?_, ?_⟩
  · rw [hp]; norm_num [measB, meas0]
  · rw [hn (by norm_num [measB, meas0])]
    norm_num [measB, meas0]

/-- Claim C4: for both the averaged pair and the peak pair maintained
by `handleMeasurements`, immediately after the negative member is
computed or updated, if its magnitude is at least 1.1 times the
magnitude of the corresponding positive member then the stored
negative value equals exactly the negation of that positive member. -/
theorem negative_clamp_invariant (d : Bool) (s : Meas) :
    (MAX_SAMPLES ≤ s.negative_adc_count →
      11 / 10 * |(handleMeasurements d s).averagePositiveCurrent| ≤
          |s.negative_adc_sum / (s.negative_adc_count : ℚ) * ADC_SLOPE +
            ADC_INTERCEPT| →
      (handleMeasurements d s).averageNegativeCurrent =
        -(handleMeasurements d s).averagePositiveCurrent) ∧
    (d = false → s.latestCurrent < s.peakNegativeCurrent →
      11 / 10 * |s.peakPositiveCurrent| ≤ |s.latestCurrent| →
      (handleMeasurements d s).peakNegativeCurrent =
        -(handleMeasurements d s).peakPositiveCurrent) := by
  simp only [handleMeasurements]
  split_ifs <;> simp_all

/-- Witness for C4: with 100 pending negative samples of sum 0 the
computed negative average is the intercept (≈ -39.39 A); against a
positive average of 1 A it is clamped to -1 A, and the negative peak
update from -50 A against a positive peak of 1 A is clamped to -1 A. -/
theorem negative_clamp_invariant_witness :
    (handleMeasurements false measC4).averageNegativeCurrent =
      -(handleMeasurements false measC4).averagePositiveCurrent ∧
    (handleMeasurements false measC4).peakNegativeCurrent =
      -(handleMeasurements false measC4).peakPositiveCurrent := by
  have h := negative_clamp_invariant false measC4
  constructor
  · refine h.1 (by norm_num [measC4, measB, meas0, MAX_SAMPLES]) ?_
    have h1 : (handleMeasurements false measC4).averagePositiveCurrent = 1 := by
      norm_num [handleMeasurements, measC4, measB, meas0, MAX_SAMPLES]
    have h2 : measC4.negative_adc_sum / (measC4.negative_adc_count : ℚ) *
        ADC_SLOPE + ADC_INTERCEPT = ADC_INTERCEPT := by
      norm_num [measC4, measB, meas0]
    rw [h1, abs_one, mul_one, h2,
      abs_of_nonpos (by norm_num [ADC_INTERCEPT])]
    norm_num [ADC_INTERCEPT]
  · exact h.2 rfl (by norm_num [measC4, measB, meas0])
      (by norm_num [measC4, measB, meas0])

/-- Claim C10: `resetPeakValues` zeroes both peak currents, both
average currents and both accumulators' sums and counts, and sets all
four published voltage fields to the current target-voltage parameter
`FValue1` (here `fv1`) rather than to zero. -/
theorem resetPeakValues_fields (fv1 : ℚ) (s : Meas) :
    (resetPeakValues fv1 s).peakPositiveCurrent = 0 ∧
    (resetPeakValues fv1 s).peakNegativeCurrent = 0 ∧
    (resetPeakValues fv1 s).averagePositiveCurrent = 0 ∧
    (resetPeakValues fv1 s).averageNegativeCurrent = 0 ∧
    (resetPeakValues fv1 s).positive_adc_sum = 0 ∧
    (resetPeakValues fv1 s).positive_adc_count = 0 ∧
    (resetPeakValues fv1 s).negative_adc_sum = 0 ∧
    (resetPeakValues fv1 s).negative_adc_count = 0 ∧
    (resetPeakValues fv1 s).peakPositiveVoltage = fv1 ∧
    (resetPeakValues fv1 s).peakNegativeVoltage = fv1 ∧
    (resetPeakValues fv1 s).averagePositiveVoltage = fv1 ∧
    (resetPeakValues fv1 s).averageNegativeVoltage = fv1 := by
  simp [resetPeakValues]

-- Order lemmas for the eviction key --------------------------------------

lemma keyLE_rfl (a : WiFiCredential) : keyLE a a := by
  unfold keyLE; omega

lemma keyLE_trans {a b c : WiFiCredential} (h1 : keyLE a b) (h2 : keyLE b c) :
    keyLE a c := by
  unfold keyLE at *; omega

lemma keyLT_keyLE {a b : WiFiCredential} (h : keyLT a b) : keyLE a b := by
  unfold keyLT at h; unfold keyLE; omega

lemma keyLE_of_not_keyLT {a b : WiFiCredential} (h : ¬keyLT a b) :
    keyLE b a := by
  unfold keyLT at h; unfold keyLE; omega

lemma shouldSwapB_of_valid {a b : WiFiCredential} (ha : a.isValid = true)
    (hb : b.isValid = true) : shouldSwapB a b = true ↔ keyLT a b := by
  simp [shouldSwapB, ha, hb, keyLT, Bool.or_eq_true, Bool.and_eq_true,
    decide_eq_true_iff, beq_iff_eq]

-- Search lemmas ------------------------------------------------------------

lemma findNetworkIndex_none_iff (t : NetworkTable) (ssid : String) :
    findNetworkIndex t ssid = none ↔
      ∀ i : Fin 5, (t i).isValid = true → (t i).ssid ≠ ssid := by
  unfold findNetworkIndex
  rw [List.find?_eq_none]
  constructor
  · intro h i hv
    have := h i (List.mem_finRange i)
    simp [hv, beq_iff_eq] at this
    exact this
  · intro h i _
    simp [Bool.and_eq_true, beq_iff_eq]
    intro hv
    exact h i hv

lemma findNetworkIndex_some (t : NetworkTable) (ssid : String) (i : Fin 5)
    (h : findNetworkIndex t ssid = some i) :
    (t i).isValid = true ∧ (t i).ssid = ssid := by
  have := List.find?_some h
  simpa [Bool.and_eq_true, beq_iff_eq] using this

lemma firstEmptySlot_none (t : NetworkTable) (h : AllValid t) :
    firstEmptySlot t = none := by
  unfold firstEmptySlot
  rw [List.find?_eq_none]
  intro i _
  simp [h i]

lemma firstEmptySlot_some (t : NetworkTable) (i : Fin 5)
    (h : firstEmptySlot t = some i) : (t i).isValid = false := by
  have := List.find?_some h
  simpa using this

-- Permutation structure of the bubble sort ---------------------------------

lemma cmpSwapAt_perm (t : NetworkTable) (j : Nat) :
    ∃ σ : Equiv.Perm (Fin 5), cmpSwapAt t j = t ∘ σ := by
  unfold cmpSwapAt
  by_cases h : j + 1 < 5
  · rw [dif_pos h]
    by_cases hs :
        shouldSwapB (t ⟨j, Nat.lt_of_succ_lt h⟩) (t ⟨j + 1, h⟩) = true
    · rw [if_pos hs]
      refine ⟨Equiv.swap ⟨j, Nat.lt_of_succ_lt h⟩ ⟨j + 1, h⟩, ?_⟩
      have hne : (⟨j, Nat.lt_of_succ_lt h⟩ : Fin 5) ≠ ⟨j + 1, h⟩ := by
        simp [Fin.ext_iff]
      funext x
      by_cases hx1 : x = (⟨j + 1, h⟩ : Fin 5)
      · subst hx1
        simp [Function.comp, Equiv.swap_apply_right, Function.update_same]
      · by_cases hx2 : x = (⟨j, Nat.lt_of_succ_lt h⟩ : Fin 5)
        · subst hx2
          simp [Function.comp, Equiv.swap_apply_left,
            Function.update_noteq hne, Function.update_same]
        · simp [Function.comp, Equiv.swap_apply_of_ne_of_ne hx2 hx1,
            Function.update_noteq hx1, Function.update_noteq hx2]
    · rw [if_neg hs]
      exact ⟨1, by funext x; simp⟩
  · rw [dif_neg h]
    exact ⟨1, by funext x; simp⟩

lemma innerPass_perm (t : NetworkTable) (m : Nat) :
    ∃ σ : Equiv.Perm (Fin 5), innerPass t m = t ∘ σ := by
  induction m with
  | zero => exact ⟨1, by funext x; simp [innerPass]⟩
  | succ m ih =>
      obtain ⟨σ, hσ⟩ := ih
      obtain ⟨τ, hτ⟩ := cmpSwapAt_perm (innerPass t m) m
      refine ⟨τ.trans σ, ?_⟩
      show cmpSwapAt (innerPass t m) m = _
      rw [hτ, hσ]
      rfl

lemma sortNetworksByPriority_perm (t : NetworkTable) :
    ∃ σ : Equiv.Perm (Fin 5), sortNetworksByPriority t = t ∘ σ := by
  obtain ⟨σ1, h1⟩ := innerPass_perm t 4
  obtain ⟨σ2, h2⟩ := innerPass_perm (innerPass t 4) 3
  obtain ⟨σ3, h3⟩ := innerPass_perm (innerPass (innerPass t 4) 3) 2
  obtain ⟨σ4, h4⟩ :=
    innerPass_perm (innerPass (innerPass (innerPass t 4) 3) 2) 1
  refine ⟨((σ4.trans σ3).trans σ2).trans σ1, ?_⟩
  show innerPass (innerPass (innerPass (innerPass t 4) 3) 2) 1 = _
  rw [h4, h3, h2, h1]
  rfl

lemma allValid_comp (t : NetworkTable) (σ : Equiv.Perm (Fin 5))
    (hv : AllValid t) : AllValid (t ∘ σ) :=
  fun i => hv (σ i)

lemma allValid_innerPass (t : NetworkTable) (m : Nat) (hv : AllValid t) :
    AllValid (innerPass t m) := by
  obtain ⟨σ, hσ⟩ := innerPass_perm t m
  rw [hσ]; exact allValid_comp t σ hv

-- Untouched trailing indices ----------------------------------------------

lemma cmpSwapAt_apply_ne (t : NetworkTable) (j : Nat) (k : Fin 5)
    (h1 : k.val ≠ j) (h2 : k.val ≠ j + 1) : cmpSwapAt t j k = t k := by
  unfold cmpSwapAt
  by_cases h : j + 1 < 5
  · rw [dif_pos h]
    have hk1 : k ≠ (⟨j, Nat.lt_of_succ_lt h⟩ : Fin 5) := by
      simp [Fin.ext_iff]; omega
    have hk2 : k ≠ (⟨j + 1, h⟩ : Fin 5) := by
      simp [Fin.ext_iff]; omega
    by_cases hs :
        shouldSwapB (t ⟨j, Nat.lt_of_succ_lt h⟩) (t ⟨j + 1, h⟩) = true
    · rw [if_pos hs]
      rw [Function.update_noteq hk2, Function.update_noteq hk1]
    · rw [if_neg hs]
  · rw [dif_neg h]

lemma innerPass_apply_of_gt (t : NetworkTable) (m : Nat) (k : Fin 5)
    (hk : m < k.val) : innerPass t m k = t k := by
  induction m with
  | zero => rfl
  | succ m ih =>
      show cmpSwapAt (innerPass t m) m k = t k
      rw [cmpSwapAt_apply_ne _ _ _ (by omega) (by omega)]
      exact ih (by omega)

-- The last slot after sorting is an eviction-order minimum -----------------

lemma innerPass_min (t : NetworkTable) (hv : AllValid t) :
    ∀ m : Nat, (hm : m < 5) → ∀ k : Fin 5, k.val ≤ m →
      keyLE (innerPass t m ⟨m, hm⟩) (innerPass t m k) := by
  intro m
  induction m with
  | zero =>
      intro hm k hk
      have : k = ⟨0, hm⟩ := Fin.ext (by simpa using Nat.le_zero.mp hk)
      rw [this]
      exact keyLE_rfl _
  | succ m ih =>
      intro hm k hk
      have hm' : m < 5 := by omega
      have hvu : AllValid (innerPass t m) := allValid_innerPass t m hv
      show keyLE (cmpSwapAt (innerPass t m) m ⟨m + 1, hm⟩)
        (cmpSwapAt (innerPass t m) m k)
      unfold cmpSwapAt
      rw [dif_pos hm]
      set u := innerPass t m with hu
      have hja : (⟨m, Nat.lt_of_succ_lt hm⟩ : Fin 5) = ⟨m, hm'⟩ := rfl
      by_cases hs : shouldSwapB (u ⟨m, Nat.lt_of_succ_lt hm⟩) (u ⟨m + 1, hm⟩) = true
      · rw [if_pos hs]
        have hlt : keyLT (u ⟨m, hm'⟩) (u ⟨m + 1, hm⟩) :=
          (shouldSwapB_of_valid (hvu _) (hvu _)).1 hs
        have hne : (⟨m, Nat.lt_of_succ_lt hm⟩ : Fin 5) ≠ ⟨m + 1, hm⟩ := by
          simp [Fin.ext_iff]
        have hv4 : Function.update
            (Function.update u ⟨m, Nat.lt_of_succ_lt hm⟩ (u ⟨m + 1, hm⟩))
            ⟨m + 1, hm⟩ (u ⟨m, Nat.lt_of_succ_lt hm⟩) ⟨m + 1, hm⟩ =
            u ⟨m, hm'⟩ := by
          simp [Function.update_same]
        rw [hv4]
        by_cases hk1 : k = (⟨m + 1, hm⟩ : Fin 5)
        · subst hk1
          rw [hv4]
          exact keyLE_rfl _
        · rw [Function.update_noteq hk1]
          by_cases hk2 : k = (⟨m, Nat.lt_of_succ_lt hm⟩ : Fin 5)
          · subst hk2
            rw [Function.update_same]
            exact keyLT_keyLE hlt
          · rw [Function.update_noteq hk2]
            refine ih hm' k ?_
            have : k.val ≠ m + 1 := by
              intro hcon
              exact hk1 (by apply Fin.ext; simpa using hcon)
            have : k.val ≠ m := by
              intro hcon
              exact hk2 (by apply Fin.ext; simpa using hcon)
            omega
      · rw [if_neg hs]
        have hnlt : ¬keyLT (u ⟨m, hm'⟩) (u ⟨m + 1, hm⟩) := by
          intro hcon
          exact hs ((shouldSwapB_of_valid (hvu _) (hvu _)).2 hcon)
        have hle : keyLE (u ⟨m + 1, hm⟩) (u ⟨m, hm'⟩) :=
          keyLE_of_not_keyLT hnlt
        by_cases hk1 : k = (⟨m + 1, hm⟩ : Fin 5)
        · subst hk1
          exact keyLE_rfl _
        · have hk1v : k.val ≤ m := by
            have : k.val ≠ m + 1 := by
              intro hcon
              exact hk1 (by apply Fin.ext; simpa using hcon)
            omega
          exact keyLE_trans hle (ih hm' k hk1v)

lemma pass_preserves_last_min (u : NetworkTable) (m : Nat) (hm : m < 4)
    (hmin : ∀ k : Fin 5, keyLE (u ⟨4, by omega⟩) (u k)) :
    ∀ k : Fin 5, keyLE (innerPass u m ⟨4, by omega⟩) (innerPass u m k) := by
  intro k
  obtain ⟨σ, hσ⟩ := innerPass_perm u m
  have h4 : innerPass u m ⟨4, by omega⟩ = u ⟨4, by omega⟩ :=
    innerPass_apply_of_gt u m _ (by simpa using hm)
  rw [h4, hσ]
  exact hmin (σ k)

lemma sort_last_min (t : NetworkTable) (hv : AllValid t) :
    ∀ k : Fin 5, keyLE (sortNetworksByPriority t (4 : Fin 5))
      (sortNetworksByPriority t k) := by
  have h4 : ((4 : Fin 5) : Fin 5) = ⟨4, by omega⟩ := rfl
  have h1 : ∀ k : Fin 5, keyLE (innerPass t 4 ⟨4, by omega⟩)
      (innerPass t 4 k) := by
    intro k
    exact innerPass_min t hv 4 (by omega) k (by omega)
  have hv1 : AllValid (innerPass t 4) := allValid_innerPass t 4 hv
  have h2 := pass_preserves_last_min (innerPass t 4) 3 (by omega) h1
  have h3 := pass_preserves_last_min (innerPass (innerPass t 4) 3) 2
    (by omega) h2
  have h4' := pass_preserves_last_min
    (innerPass (innerPass (innerPass t 4) 3) 2) 1 (by omega) h3
  intro k
  rw [h4]
  exact h4' k

-- Invariant preservation --------------------------------------------------

lemma tableInv_comp (t : NetworkTable) (σ : Equiv.Perm (Fin 5))
    (h : TableInv t) : TableInv (t ∘ σ) := by
  obtain ⟨hnd, hpos, hbyte⟩ := h
  refine ⟨?_, fun i => hpos (σ i), fun i => hbyte (σ i)⟩
  intro i j hij hvi hvj
  exact hnd (σ i) (σ j) (fun hc => hij (σ.injective hc)) hvi hvj

lemma fresh_comp (t : NetworkTable) (σ : Equiv.Perm (Fin 5)) (ssid : String)
    (h : ∀ i : Fin 5, (t i).isValid = true → (t i).ssid ≠ ssid) :
    ∀ i : Fin 5, ((t ∘ σ) i).isValid = true → ((t ∘ σ) i).ssid ≠ ssid :=
  fun i hv => h (σ i) hv

lemma tableInv_insert (t : NetworkTable) (i : Fin 5) (ssid pw : String)
    (now : Nat) (h : TableInv t)
    (hfresh : ∀ x : Fin 5, (t x).isValid = true → (t x).ssid ≠ ssid) :
    TableInv (Function.update t i ⟨ssid, pw, 1, now, true⟩) := by
  obtain ⟨hnd, hpos, hbyte⟩ := h
  refine ⟨?_, ?_, ?_⟩
  · intro a b hab hva hvb
    by_cases ha : a = i
    · subst ha
      have hb : b ≠ a := fun hc => hab hc.symm
      rw [Function.update_noteq hb] at hvb ⊢
      rw [Function.update_same]
      exact fun hc => hfresh b hvb (by rw [← hc])
    · rw [Function.update_noteq ha] at hva ⊢
      by_cases hb : b = i
      · subst hb
        rw [Function.update_same]
        exact fun hc => hfresh a hva (by rw [hc])
      · rw [Function.update_noteq hb] at hvb ⊢
        exact hnd a b hab hva hvb
  · intro a hva
    by_cases ha : a = i
    · subst ha; rw [Function.update_same]
    · rw [Function.update_noteq ha] at hva ⊢
      exact hpos a hva
  · intro a
    by_cases ha : a = i
    · subst ha; rw [Function.update_same]; show (1 : Nat) < 256; omega
    · rw [Function.update_noteq ha]
      exact hbyte a

lemma tableInv_applyNetOp (t : NetworkTable) (op : NetOp) (h : TableInv t)
    (hok : stepOkB t op = true) : TableInv (applyNetOp t op) := by
  obtain ⟨hnd, hpos, hbyte⟩ := h
  cases op with
  | remove ssid =>
      show TableInv (removeNetwork t ssid)
      unfold removeNetwork
      cases hf : findNetworkIndex t ssid with
      | none => exact ⟨hnd, hpos, hbyte⟩
      | some i =>
          dsimp only
          refine ⟨?_, ?_, ?_⟩
          · intro a b hab hva hvb
            by_cases ha : a = i
            · subst ha; rw [Function.update_same] at hva; simp at hva
            · by_cases hb : b = i
              · subst hb; rw [Function.update_same] at hvb; simp at hvb
              · rw [Function.update_noteq ha] at hva ⊢
                rw [Function.update_noteq hb] at hvb ⊢
                exact hnd a b hab hva hvb
          · intro a hva
            by_cases ha : a = i
            · subst ha; rw [Function.update_same] at hva; simp at hva
            · rw [Function.update_noteq ha] at hva ⊢
              exact hpos a hva
          · intro a
            by_cases ha : a = i
            · subst ha; rw [Function.update_same]; exact hbyte a
            · rw [Function.update_noteq ha]; exact hbyte a
  | add ssid pw now =>
      show TableInv (addOrUpdateNetwork t ssid pw now)
      unfold addOrUpdateNetwork
      by_cases hss : ssid = ""
      · rw [if_pos hss]; exact ⟨hnd, hpos, hbyte⟩
      · rw [if_neg hss]
        cases hf : findNetworkIndex t ssid with
        | some i =>
            dsimp only
            have hok2 : (t i).priority ≠ 255 := by
              simpa [stepOkB, hf] using hok
            refine ⟨?_, ?_, ?_⟩
            · intro a b hab hva hvb
              by_cases ha : a = i
              · subst ha
                have hb : b ≠ a := fun hc => hab hc.symm
                rw [Function.update_noteq hb] at hvb ⊢
                rw [Function.update_same] at hva ⊢
                exact hnd a b hab hva hvb
              · rw [Function.update_noteq ha] at hva ⊢
                by_cases hb : b = i
                · subst hb
                  rw [Function.update_same] at hvb ⊢
                  exact hnd a b hab hva hvb
                · rw [Function.update_noteq hb] at hvb ⊢
                  exact hnd a b hab hva hvb
            · intro a hva
              by_cases ha : a = i
              · subst ha
                rw [Function.update_same]
                have := hbyte a
                have h254 : (t a).priority ≤ 254 := by omega
                show 1 ≤ ((t a).priority + 1) % 256
                omega
              · rw [Function.update_noteq ha] at hva ⊢
                exact hpos a hva
            · intro a
              by_cases ha : a = i
              · subst ha
                rw [Function.update_same]
                show ((t a).priority + 1) % 256 < 256
                omega
              · rw [Function.update_noteq ha]
                exact hbyte a
        | none =>
            have hfresh : ∀ x : Fin 5, (t x).isValid = true →
                (t x).ssid ≠ ssid :=
              (findNetworkIndex_none_iff t ssid).1 hf
            cases he : firstEmptySlot t with
            | some i =>
                dsimp only
                exact tableInv_insert t i ssid pw now ⟨hnd, hpos, hbyte⟩
                  hfresh
            | none =>
                dsimp only
                obtain ⟨σ, hσ⟩ := sortNetworksByPriority_perm t
                rw [hσ]
                exact tableInv_insert (t ∘ σ) (4 : Fin 5) ssid pw now
                  (tableInv_comp t σ ⟨hnd, hpos, hbyte⟩)
                  (fresh_comp t σ ssid hfresh)

lemma tableInv_run (ops : List NetOp) :
    ∀ t : NetworkTable, TableInv t → goodRunB t ops = true →
      TableInv (applyNetOps t ops) := by
  induction ops with
  | nil => intro t h _; exact h
  | cons op ops ih =>
      intro t h hg
      rw [goodRunB, Bool.and_eq_true] at hg
      exact ih (applyNetOp t op) (tableInv_applyNetOp t op h hg.1) hg.2

lemma validCountLe_any (t : NetworkTable) : ValidCountLe t :=
  le_trans (Finset.card_filter_le _ _) (by simp [MAX_WIFI_NETWORKS])

/-- Claim C5 (amended): after any sequence of `addOrUpdateNetwork` and
`removeNetwork` calls starting from the initialized all-invalid table,
the table holds at most 5 valid entries and no two valid entries share
an SSID; moreover, every valid entry's priority is at least 1 provided
no call of the run increments an entry whose 8-bit priority is already
255 (the priority counter wraps modulo 256, so the 256th consecutive
add of one SSID drops its priority to 0). -/
theorem credential_table_invariant (ops : List NetOp)
    (h : goodRunB initMultiNetworkStorage ops = true) :
    ValidCountLe (applyNetOps initMultiNetworkStorage ops) ∧
    NoDupSSIDs (applyNetOps initMultiNetworkStorage ops) ∧
    PrioritiesPos (applyNetOps initMultiNetworkStorage ops) := by
  have hinit : TableInv initMultiNetworkStorage := by
    refine ⟨?_, ?_, ?_⟩ <;> intro i <;>
      simp [initMultiNetworkStorage, NoDupSSIDs, PrioritiesPos,
        PrioritiesByte]
  have hrun := tableInv_run ops initMultiNetworkStorage hinit h
  exact ⟨validCountLe_any _, hrun.1, hrun.2.1⟩

/-- Witness for C5: a short run of adds, an update and a removal keeps
the invariant. -/
theorem credential_table_invariant_witness :
    goodRunB initMultiNetworkStorage
      [NetOp.add "alpha" "pw" 5, NetOp.add "beta" "" 6,
        NetOp.add "alpha" "pw2" 7, NetOp.remove "beta"] = true ∧
    (ValidCountLe (applyNetOps initMultiNetworkStorage
        [NetOp.add "alpha" "pw" 5, NetOp.add "beta" "" 6,
          NetOp.add "alpha" "pw2" 7, NetOp.remove "beta"]) ∧
      NoDupSSIDs (applyNetOps initMultiNetworkStorage
        [NetOp.add "alpha" "pw" 5, NetOp.add "beta" "" 6,
          NetOp.add "alpha" "pw2" 7, NetOp.remove "beta"]) ∧
      PrioritiesPos (applyNetOps initMultiNetworkStorage
        [NetOp.add "alpha" "pw" 5, NetOp.add "beta" "" 6,
          NetOp.add "alpha" "pw2" 7, NetOp.remove "beta"])) :=
  ⟨by decide, credential_table_invariant _ (by decide)⟩

-- Wraparound counterexample ------------------------------------------------

lemma add_same_step (p : Nat) :
    applyNetOp (tblA p) (NetOp.add "a" "p" 0) = tblA ((p + 1) % 256) := by
  show addOrUpdateNetwork (tblA p) "a" "p" 0 = _
  have hfind : findNetworkIndex (tblA p) "a" = some ⟨0, by omega⟩ := rfl
  unfold addOrUpdateNetwork
  rw [if_neg (by decide), hfind]
  funext x
  by_cases hx : x = (⟨0, by omega⟩ : Fin 5)
  · subst hx
    simp [tblA, Function.update_same, initMultiNetworkStorage]
  · simp [tblA, Function.update_noteq hx]

lemma add_same_repeat : ∀ n : Nat,
    applyNetOps initMultiNetworkStorage
      (List.replicate (n + 1) (NetOp.add "a" "p" 0)) = tblA ((n + 1) % 256)
  | 0 => by decide
  | n + 1 => by
      have h2 : applyNetOps initMultiNetworkStorage
          (List.replicate (n + 1 + 1) (NetOp.add "a" "p" 0)) =
          applyNetOp (applyNetOps initMultiNetworkStorage
            (List.replicate (n + 1) (NetOp.add "a" "p" 0)))
            (NetOp.add "a" "p" 0) := by
        unfold applyNetOps
        rw [List.replicate_succ' (n + 1), List.foldl_append]
        rfl
      rw [h2, add_same_repeat n, add_same_step]
      exact congrArg tblA (by omega)

/-- Counterexample to claim C5 as stated: after 256 `addOrUpdateNetwork`
calls for the same SSID, the entry is valid but its 8-bit priority has
wrapped around to 0, violating "every valid entry's priority ≥ 1". -/
theorem priority_wraps_to_zero_cex :
    ((applyNetOps initMultiNetworkStorage
        (List.replicate 256 (NetOp.add "a" "p" 0))) ⟨0, by omega⟩).isValid =
      true ∧
    ((applyNetOps initMultiNetworkStorage
        (List.replicate 256 (NetOp.add "a" "p" 0))) ⟨0, by omega⟩).priority =
      0 := by
  have h := add_same_repeat 255
  norm_num at h
  rw [h]
  exact ⟨rfl, rfl⟩

-- Eviction -----------------------------------------------------------------

/-- Claim C6: adding a sixth, distinct SSID to a full table evicts
exactly one entry, namely one that is minimal in the eviction order
(lowest priority, ties broken by the oldest `lastConnected`); the new
SSID lands in the last slot with priority 1 and timestamp `now`, the
other four slots are a rearrangement of surviving old entries, and the
table stays full (5 valid entries). -/
theorem eviction_lowest_priority (t : NetworkTable) (ssid password : String)
    (now : Nat) (hssid : ssid ≠ "") (hvalid : AllValid t)
    (hfresh : ∀ i : Fin 5, (t i).ssid ≠ ssid) :
    addOrUpdateNetwork t ssid password now (4 : Fin 5) =
      ⟨ssid, password, 1, now, true⟩ ∧
    AllValid (addOrUpdateNetwork t ssid password now) ∧
    ∃ σ : Equiv.Perm (Fin 5),
      (∀ k : Fin 5, k ≠ (4 : Fin 5) →
        addOrUpdateNetwork t ssid password now k = t (σ k)) ∧
      (∀ j : Fin 5, keyLE (t (σ (4 : Fin 5))) (t j)) := by
  have hfind : findNetworkIndex t ssid = none :=
    (findNetworkIndex_none_iff t ssid).2 fun i _ => hfresh i
  have hempty : firstEmptySlot t = none := firstEmptySlot_none t hvalid
  have hred : addOrUpdateNetwork t ssid password now =
      Function.update (sortNetworksByPriority t) (4 : Fin 5)
        ⟨ssid, password, 1, now, true⟩ := by
    unfold addOrUpdateNetwork
    rw [if_neg hssid, hfind, hempty]
  obtain ⟨σ, hσ⟩ := sortNetworksByPriority_perm t
  rw [hred]
  refine ⟨Function.update_same _ _ _, ?_, σ, ?_, ?_⟩
  · intro i
    by_cases hi : i = (4 : Fin 5)
    · subst hi; rw [Function.update_same]
    · rw [Function.update_noteq hi, hσ]
      exact hvalid (σ i)
  · intro k hk
    rw [Function.update_noteq hk, hσ]
    rfl
  · intro j
    have hmin := sort_last_min t hvalid (σ.symm j)
    rw [hσ] at hmin
    have h4 : (t ∘ σ) (σ.symm j) = t j := by
      simp
    rw [h4] at hmin
    exact hmin

/-- Witness for C6 (the spec's Scenario D): five valid entries all of
priority 1 with `lastConnected` 50, 40, 30, 20, 10; adding a sixth
distinct SSID keeps the table full, the new SSID is present in the
last slot with priority 1, and the evicted entry is minimal in the
eviction order. -/
theorem eviction_lowest_priority_witness :
    ("new6" ≠ "" ∧ AllValid tbl5 ∧
      ∀ i : Fin 5, (tbl5 i).ssid ≠ "new6") ∧
    (addOrUpdateNetwork tbl5 "new6" "pw6" 60 (4 : Fin 5) =
        ⟨"new6", "pw6", 1, 60, true⟩ ∧
      AllValid (addOrUpdateNetwork tbl5 "new6" "pw6" 60) ∧
      ∃ σ : Equiv.Perm (Fin 5),
        (∀ k : Fin 5, k ≠ (4 : Fin 5) →
          addOrUpdateNetwork tbl5 "new6" "pw6" 60 k = tbl5 (σ k)) ∧
        (∀ j : Fin 5, keyLE (tbl5 (σ (4 : Fin 5))) (tbl5 j))) :=
  ⟨⟨by decide, by decide, by decide⟩,
    eviction_lowest_priority tbl5 "new6" "pw6" 60 (by decide) (by decide)
      (by decide)⟩

-- Backoff ------------------------------------------------------------------

/-- Claim C7 is refuted by the portal coupling of the failure path:
starting from the boot state (interval 10000 ms, portal inactive),
a failed attempt at t = 40001 ms doubles the interval to 20000 ms and
starts the config portal; the next ordinary loop iteration
(t = 40100 ms, portal still active) takes the `else` branch and
resets the interval back to the 10000 ms base; when the portal later
closes and a second consecutive failed attempt runs (t = 250000 ms,
no success in between), the interval is 20000 ms — not
`min(10000 * 2^2, cap) = 40000 ms` as the claim requires.  Since the
cooperative loop iterates continuously while the portal needs its
180 s timeout to close, every real execution interleaves such
portal-active iterations, so the interval never compounds past twice
the base. -/
theorem backoff_reset_by_portal_bug :
    (applyReconnects 300000 ⟨reconnectIntervalBase, 0, false⟩
        [⟨false, 40001, false, false⟩]).currentReconnectInterval = 20000 ∧
    (applyReconnects 300000 ⟨reconnectIntervalBase, 0, false⟩
        [⟨false, 40001, false, false⟩]).configPortalActive = true ∧
    (applyReconnects 300000 ⟨reconnectIntervalBase, 0, false⟩
        [⟨false, 40001, false, false⟩,
          ⟨false, 40100, false, false⟩]).currentReconnectInterval =
      reconnectIntervalBase ∧
    (applyReconnects 300000 ⟨reconnectIntervalBase, 0, false⟩
        [⟨false, 40001, false, false⟩, ⟨false, 40100, false, false⟩,
          ⟨false, 250000, false, true⟩]).currentReconnectInterval =
      20000 ∧
    (20000 : Nat) ≠ min (reconnectIntervalBase * 2 ^ 2) 300000 := by
  refine ⟨by decide, by decide, by decide, by decide, ?_⟩
  norm_num [reconnectIntervalBase]

-- Command rejection ---------------------------------------------------------

/-- Claim C8: a set-target-voltage command with a value outside
[0,24] V (such as 30) and a forward/reverse dwell-time command with a
value outside [10,60000] ms are rejected without any mutation: the
whole control state (including `FValue1` and the measurement state)
is returned unchanged, no `saveSettings` flash write happens, no
`resetPeakValues` call happens and no client notification is sent.
(The rejection is also logged over the serial port, an output outside
the modelled state.) -/
theorem out_of_range_command_rejected (s : CtrlState) :
    (∀ v : ℚ, v < 0 ∨ 24 < v →
      handleWebSocketMessage s (WsCommand.setTargetVoltage v) =
        (s, ⟨0, 0, 0⟩)) ∧
    (∀ n : Int, n < 10 ∨ 60000 < n →
      handleWebSocketMessage s (WsCommand.setForwardTime n) =
        (s, ⟨0, 0, 0⟩)) ∧
    (∀ n : Int, n < 10 ∨ 60000 < n →
      handleWebSocketMessage s (WsCommand.setReverseTime n) =
        (s, ⟨0, 0, 0⟩)) := by
  refine ⟨?_, ?_, ?_⟩
  · intro v hv
    have hno : ¬(0 ≤ v ∧ v ≤ 24) := by
      rcases hv with h | h <;> rintro ⟨h1, h2⟩ <;> linarith
    simp [handleWebSocketMessage, hno]
  · intro n hn
    have hno : ¬(10 ≤ n ∧ n ≤ 60000) := by omega
    simp [handleWebSocketMessage, hno]
  · intro n hn
    have hno : ¬(10 ≤ n ∧ n ≤ 60000) := by omega
    simp [handleWebSocketMessage, hno]

/-- Witness for C8 (the spec's Scenario A): voltage 30 V, forward
dwell 70000 ms and reverse dwell 5 ms are all rejected with no state
change and no effects. -/
theorem out_of_range_command_rejected_witness :
    handleWebSocketMessage ctrl0 (WsCommand.setTargetVoltage 30) =
      (ctrl0, ⟨0, 0, 0⟩) ∧
    handleWebSocketMessage ctrl0 (WsCommand.setForwardTime 70000) =
      (ctrl0, ⟨0, 0, 0⟩) ∧
    handleWebSocketMessage ctrl0 (WsCommand.setReverseTime 5) =
      (ctrl0, ⟨0, 0, 0⟩) :=
  ⟨(out_of_range_command_rejected ctrl0).1 30 (Or.inr (by norm_num)),
    (out_of_range_command_rejected ctrl0).2.1 70000 (Or.inr (by norm_num)),
    (out_of_range_command_rejected ctrl0).2.2 5 (Or.inl (by norm_num))⟩

-- One-shot startup reset ----------------------------------------------------

lemma applyTicks_latched (t0 c : Nat) :
    ∀ ticks : List LoopTick, applyTicks t0 ⟨true, c⟩ ticks = ⟨true, c⟩ := by
  intro ticks
  induction ticks with
  | nil => rfl
  | cons tk ticks ih =>
      show applyTicks t0 (oneShotStep t0 ⟨true, c⟩ tk) ticks = _
      have hstep : oneShotStep t0 ⟨true, c⟩ tk = ⟨true, c⟩ := by
        unfold oneShotStep
        split_ifs with h1 h2
        · simp at h2
        · rfl
        · rfl
      rw [hstep]
      exact ih

/-- Claim C9: over any sequence of control-loop iterations the
one-shot path invokes `resetPeakValues` exactly once if some
running-mode iteration sees at least 60000 ms elapsed (32-bit
wrapping `millis()` difference) since the recorded startup stamp
`t0` (`peakResetStartTime`), and never otherwise; the
`hasResetPeakCurrent` latch is set exactly when such an iteration has
occurred, so the reset fires at the first qualifying iteration and
never again afterwards regardless of further elapsed time.
(Quantification over every list of ticks applies in particular to
every prefix of an execution.) -/
theorem one_shot_reset_fires_once (t0 : Nat) (ticks : List LoopTick) :
    (applyTicks t0 ⟨false, 0⟩ ticks).resetInvocations =
      (if ticks.any (tickQualifies t0) then 1 else 0) ∧
    (applyTicks t0 ⟨false, 0⟩ ticks).hasResetPeakCurrent =
      ticks.any (tickQualifies t0) := by
  induction ticks with
  | nil => exact ⟨rfl, rfl⟩
  | cons tk ticks ih =>
      have hcons : applyTicks t0 ⟨false, 0⟩ (tk :: ticks) =
          applyTicks t0 (oneShotStep t0 ⟨false, 0⟩ tk) ticks := rfl
      by_cases hq : tickQualifies t0 tk = true
      · have hrun : tk.running = true := by
          unfold tickQualifies at hq
          exact (Bool.and_eq_true .. ▸ hq).1
        have helapsed : 60000 ≤ sub32 tk.now t0 := by
          unfold tickQualifies at hq
          have := (Bool.and_eq_true .. ▸ hq).2
          simpa using this
        have hstep : oneShotStep t0 ⟨false, 0⟩ tk = ⟨true, 1⟩ := by
          unfold oneShotStep
          rw [if_pos hrun, if_pos ⟨rfl, helapsed⟩]
        rw [hcons, hstep, applyTicks_latched]
        constructor
        · simp [List.any_cons, hq]
        · simp [List.any_cons, hq]
      · have hstep : oneShotStep t0 ⟨false, 0⟩ tk = ⟨false, 0⟩ := by
          have hq2 : tk.running = false ∨ ¬(60000 ≤ sub32 tk.now t0) := by
            by_cases hr : tk.running = true
            · right
              intro hc
              exact hq (by unfold tickQualifies; simp [hr, hc])
            · left
              simpa using hr
          unfold oneShotStep
          rcases hq2 with hr | hn
          · rw [if_neg (by simp [hr])]
          · split_ifs with h1 h2
            · exact absurd h2.2 hn
            · rfl
            · rfl
        rw [hcons, hstep]
        rcases ih with ⟨ih1, ih2⟩
        constructor
        · rw [ih1]
          simp [List.any_cons, hq]
        · rw [ih2]
          simp [List.any_cons, hq]

end ElectroOxidizer
